import Mathlib

set_option maxRecDepth 10000

/-!
Shallow embedding of the streaming-chat front-end of the ABUN student
assistant UI.  The definitions below translate, as directly as possible:

* the escape-sequence decoder, the SSE line-decoding loop and the terminal
  commit of `sendMessageStream` in `src/stores/useChatStore.ts`;
* the memory-conversation stream loop `sendMessageWithMemoryStream` and its
  session/history handling in the conversation store;
* the recording-session lifecycle (`cleanup`, `startRecording`,
  `stopRecording`, the MediaRecorder `onstop` handler) of
  `src/components/VoiceAssistant.tsx`.

Strings are modelled as lists of characters (`Str`).  JavaScript's
`JSON.parse` is modelled by an executable parser over that representation;
JSON numbers are parsed with the full JS grammar but the model retains only
the integral part of the value (no claim depends on a non-integral number).
`TextDecoder` with `stream: true` is byte-exact across chunk boundaries, so
chunks are modelled as the decoded text pieces whose concatenation is the
full stream text.
-/

abbrev Str := List Char

/-- JS `String.prototype.split('\n')`: every newline separates, so a
trailing newline yields a trailing empty segment and the empty string
yields one empty segment. -/
def splitNL : Str → List Str
  | [] => [[]]
  | c :: rest =>
    if c = '\n' then [] :: splitNL rest
    else
      match splitNL rest with
      | s :: ss => (c :: s) :: ss
      | [] => [[c]]

/-- Whitespace recognised by JS `String.prototype.trim` (the characters that
occur in this code base's data: space, tab, newline, carriage return,
vertical tab, form feed, no-break space). -/
def isJsWs (c : Char) : Bool :=
  c = ' ' || c = '\t' || c = '\n' || c = '\r' || c.val = 11 || c.val = 12 || c.val = 160

/-- JS `String.prototype.trim`. -/
def trimStr (s : Str) : Str :=
  ((s.dropWhile isJsWs).reverse.dropWhile isJsWs).reverse

/-- JS `String.prototype.includes`: substring test. -/
def includesStr (needle : Str) : Str → Bool
  | [] => needle.isPrefixOf ([] : Str)
  | c :: rest => needle.isPrefixOf (c :: rest) || includesStr needle rest

/-- JS `String.prototype.replace(pat, repl)` with a string pattern: replaces
only the first occurrence. -/
def replaceFirstStr (pat repl : Str) : Str → Str
  | [] => if pat.isPrefixOf ([] : Str) then repl else []
  | c :: rest =>
    if pat.isPrefixOf (c :: rest) then repl ++ (c :: rest).drop pat.length
    else c :: replaceFirstStr pat repl rest

mutual

/-- Model of a JavaScript value produced by `JSON.parse`. -/
inductive Json where
  | null
  | bool (b : Bool)
  | num (n : Int)
  | str (s : Str)
  | arr (xs : JsonList)
  | obj (fs : JsonFields)
deriving DecidableEq, Repr

inductive JsonList where
  | nil
  | cons (hd : Json) (tl : JsonList)
deriving DecidableEq, Repr

inductive JsonFields where
  | nil
  | cons (key : Str) (val : Json) (tl : JsonFields)
deriving DecidableEq, Repr

end

/-- Field lookup on a parsed object; JS objects keep the last of duplicate
keys, so the last binding wins.  Anything but an object has no fields
(the JS read would yield `undefined`, modelled as `none`). -/
def JsonFields.lookupLast (k : Str) : JsonFields → Option Json
  | .nil => none
  | .cons key v tl =>
    match JsonFields.lookupLast k tl with
    | some r => some r
    | none => if key = k then some v else none

def Json.getField (j : Json) (k : Str) : Option Json :=
  match j with
  | .obj fs => fs.lookupLast k
  | _ => none

/-- JS truthiness of a possibly-absent (`undefined`) value. -/
def jsTruthy : Option Json → Bool
  | none => false
  | some .null => false
  | some (.bool b) => b
  | some (.num n) => n != 0
  | some (.str s) => s ≠ []
  | some (.arr _) => true
  | some (.obj _) => true

def digitChar (n : Nat) : Char := Char.ofNat (48 + n)

def natDigitsAux : Nat → Nat → Str
  | 0, _ => []
  | fuel + 1, n =>
    if n < 10 then [digitChar n]
    else natDigitsAux fuel (n / 10) ++ [digitChar (n % 10)]

def natToStr (n : Nat) : Str := natDigitsAux (n + 1) n

def intToStr (i : Int) : Str :=
  if i < 0 then '-' :: natToStr i.natAbs else natToStr i.natAbs

mutual

/-- JS `String(v)` coercion for the values that can arise from `JSON.parse`
(`undefined` is handled at use sites). -/
def jsToString : Json → Str
  | .null => ("null").data
  | .bool true => ("true").data
  | .bool false => ("false").data
  | .num n => intToStr n
  | .str s => s
  | .arr xs => jsListToString xs
  | .obj _ => ("[object Object]").data

/-- `Array.prototype.toString`: elements joined by commas, `null` elements
rendered as the empty string. -/
def jsListToString : JsonList → Str
  | .nil => []
  | .cons hd .nil => (match hd with | .null => [] | v => jsToString v)
  | .cons hd tl =>
    (match hd with | .null => [] | v => jsToString v) ++ ',' :: jsListToString tl

end

/-- JS `+` on two `JSON.parse`-produced values: string concatenation if
either side is (or coerces to) a string, numeric addition for two numbers,
with `null`/booleans coerced to numbers as JS does. -/
def jsAdd (a b : Json) : Json :=
  match a, b with
  | .str sa, _ => .str (sa ++ jsToString b)
  | _, .str sb => .str (jsToString a ++ sb)
  | .arr _, _ => .str (jsToString a ++ jsToString b)
  | _, .arr _ => .str (jsToString a ++ jsToString b)
  | .obj _, _ => .str (jsToString a ++ jsToString b)
  | _, .obj _ => .str (jsToString a ++ jsToString b)
  | .num x, .num y => .num (x + y)
  | .num x, .bool y => .num (x + (if y then 1 else 0))
  | .num x, .null => .num x
  | .bool x, .num y => .num ((if x then 1 else 0) + y)
  | .bool x, .bool y => .num ((if x then 1 else 0) + (if y then 1 else 0))
  | .bool x, .null => .num (if x then 1 else 0)
  | .null, .num y => .num y
  | .null, .bool y => .num (if y then 1 else 0)
  | .null, .null => .num 0

/-- `str + undefined` in JS appends the text `undefined`; used where the code
reads a possibly-missing field and concatenates it. -/
def jsAddOpt (a : Json) (b : Option Json) : Json :=
  match b with
  | some v => jsAdd a v
  | none =>
    match a with
    | .str sa => .str (sa ++ ("undefined").data)
    | v => .str (jsToString v ++ ("undefined").data)

def hexVal (c : Char) : Option Nat :=
  if 48 ≤ c.val.toNat ∧ c.val.toNat ≤ 57 then some (c.val.toNat - 48)
  else if 97 ≤ c.val.toNat ∧ c.val.toNat ≤ 102 then some (c.val.toNat - 87)
  else if 65 ≤ c.val.toNat ∧ c.val.toNat ≤ 70 then some (c.val.toNat - 55)
  else none

def isHexDigit (c : Char) : Bool := (hexVal c).isSome

/-- JSON's own whitespace (inside `JSON.parse`): space, tab, newline, CR. -/
def isJsonWs (c : Char) : Bool := c = ' ' || c = '\t' || c = '\n' || c = '\r'

def skipJsonWs (s : Str) : Str := s.dropWhile isJsonWs

/-- Body of a JSON string literal after the opening quote: returns the decoded
characters and the remainder after the closing quote.  Control characters are
rejected, escape sequences are the standard JSON ones; `\uXXXX` is mapped
through `Char.ofNat` (surrogate code units, which Lean characters cannot
represent, collapse to the null character — no claim involves them). -/
def parseStringBody : Nat → Str → Option (Str × Str)
  | 0, _ => none
  | _, [] => none
  | fuel + 1, c :: rest =>
    if c = '"' then some ([], rest)
    else if c = '\\' then
      match rest with
      | [] => none
      | e :: rest2 =>
        if e = '"' then (parseStringBody fuel rest2).map (fun p => ('"' :: p.1, p.2))
        else if e = '\\' then (parseStringBody fuel rest2).map (fun p => ('\\' :: p.1, p.2))
        else if e = '/' then (parseStringBody fuel rest2).map (fun p => ('/' :: p.1, p.2))
        else if e = 'b' then (parseStringBody fuel rest2).map (fun p => ('\x08' :: p.1, p.2))
        else if e = 'f' then (parseStringBody fuel rest2).map (fun p => ('\x0c' :: p.1, p.2))
        else if e = 'n' then (parseStringBody fuel rest2).map (fun p => ('\n' :: p.1, p.2))
        else if e = 'r' then (parseStringBody fuel rest2).map (fun p => ('\r' :: p.1, p.2))
        else if e = 't' then (parseStringBody fuel rest2).map (fun p => ('\t' :: p.1, p.2))
        else if e = 'u' then
          match rest2 with
          | h1 :: h2 :: h3 :: h4 :: rest3 =>
            match hexVal h1, hexVal h2, hexVal h3, hexVal h4 with
            | some a, some b, some c2, some d =>
              (parseStringBody fuel rest3).map
                (fun p => (Char.ofNat (((a * 16 + b) * 16 + c2) * 16 + d) :: p.1, p.2))
            | _, _, _, _ => none
          | _ => none
        else none
    else if c.val < 32 then none
    else (parseStringBody fuel rest).map (fun p => (c :: p.1, p.2))

def isDigitChar (c : Char) : Bool := 48 ≤ c.val.toNat ∧ c.val.toNat ≤ 57

def digitsToNat (acc : Nat) : Str → Nat
  | [] => acc
  | c :: rest =>
    if isDigitChar c then digitsToNat (acc * 10 + (c.val.toNat - 48)) rest else acc

/-- Exponent tail of a JSON number after `e`/`E`. -/
def parseExpTail (t : Str) : Option Str :=
  let t1 := match t with
    | '+' :: u => u
    | '-' :: u => u
    | u => u
  if (t1.takeWhile isDigitChar) = [] then none else some (t1.dropWhile isDigitChar)

/-- Fraction part of a JSON number: `.` must be followed by at least one
digit; returns the remainder after the digits. -/
def parseFracTail : Str → Option Str
  | '.' :: t => if (t.takeWhile isDigitChar) = [] then none else some (t.dropWhile isDigitChar)
  | t => some t

/-- JSON number grammar.  The syntactic fraction and exponent are consumed
but the model keeps the signed integral part (no claim depends on a
non-integral numeric value). -/
def parseNumber (s : Str) : Option (Int × Str) :=
  let (neg, s1) := match s with
    | '-' :: t => (true, t)
    | t => (false, t)
  let intDigits := s1.takeWhile isDigitChar
  let rest1 := s1.dropWhile isDigitChar
  if intDigits = [] then none
  else if intDigits.length > 1 ∧ intDigits.headD '0' = '0' then none
  else
    let n : Nat := digitsToNat 0 intDigits
    match parseFracTail rest1 with
    | none => none
    | some rest2 =>
      let rest3 := match rest2 with
        | 'e' :: t => parseExpTail t
        | 'E' :: t => parseExpTail t
        | t => some t
      match rest3 with
      | none => none
      | some r => some ((if neg then -(n : Int) else (n : Int)), r)

mutual

/-- One JSON value (leading whitespace already consumed). -/
def parseValue : Nat → Str → Option (Json × Str)
  | 0, _ => none
  | fuel + 1, s =>
    match s with
    | [] => none
    | c :: rest =>
      if c = '"' then (parseStringBody (fuel + 1) rest).map (fun p => (.str p.1, p.2))
      else if c = '{' then parseObjFields fuel (skipJsonWs rest) true
      else if c = '[' then parseArrItems fuel (skipJsonWs rest) true
      else if c = 't' then
        if (("rue").data).isPrefixOf rest then some (.bool true, rest.drop 3) else none
      else if c = 'f' then
        if (("alse").data).isPrefixOf rest then some (.bool false, rest.drop 4) else none
      else if c = 'n' then
        if (("ull").data).isPrefixOf rest then some (.null, rest.drop 3) else none
      else
        (parseNumber s).map (fun p => (.num p.1, p.2))

/-- Fields of an object after the opening brace (whitespace consumed);
`first` is true before the first field. -/
def parseObjFields : Nat → Str → Bool → Option (Json × Str)
  | 0, _, _ => none
  | fuel + 1, s, first =>
    match s with
    | '}' :: rest => if first then some (.obj .nil, rest) else none
    | _ =>
      match s with
      | '"' :: rest =>
        match parseStringBody (fuel + 1) rest with
        | none => none
        | some (key, rest1) =>
          match skipJsonWs rest1 with
          | ':' :: rest2 =>
            match parseValue fuel (skipJsonWs rest2) with
            | none => none
            | some (v, rest3) =>
              match skipJsonWs rest3 with
              | ',' :: rest4 =>
                match parseObjFields fuel (skipJsonWs rest4) false with
                | some (.obj fs, rest5) => some (.obj (.cons key v fs), rest5)
                | _ => none
              | '}' :: rest4 => some (.obj (.cons key v .nil), rest4)
              | _ => none
          | _ => none
      | _ => none

/-- Items of an array after the opening bracket (whitespace consumed). -/
def parseArrItems : Nat → Str → Bool → Option (Json × Str)
  | 0, _, _ => none
  | fuel + 1, s, first =>
    match s with
    | ']' :: rest => if first then some (.arr .nil, rest) else none
    | _ =>
      match parseValue fuel s with
      | none => none
      | some (v, rest1) =>
        match skipJsonWs rest1 with
        | ',' :: rest2 =>
          match parseArrItems fuel (skipJsonWs rest2) false with
          | some (.arr xs, rest3) => some (.arr (.cons v xs), rest3)
          | _ => none
        | ']' :: rest2 => some (.arr (.cons v .nil), rest2)
        | _ => none

end

/-- Model of `JSON.parse`: `none` is a thrown `SyntaxError`. -/
def parseJson (s : Str) : Option Json :=
  match parseValue (s.length + 1) (skipJsonWs s) with
  | none => none
  | some (v, rest) => if skipJsonWs rest = [] then some v else none

/-! Escape-sequence decoder of `useChatStore.ts` (lines 75-85): a chain of
global `String.replace` passes in the fixed order
newline, carriage return, tab, unicode escape, quote, backslash. -/

/-- JS `str.replace(/xy/g, r)` for a two-character literal pattern:
left-to-right, non-overlapping. -/
def replacePair (a b : Char) (r : Str) : Str → Str
  | [] => []
  | [c] => [c]
  | c :: c2 :: rest2 =>
    if c = a ∧ c2 = b then r ++ replacePair a b r rest2
    else c :: replacePair a b r (c2 :: rest2)

def hexValD (c : Char) : Nat := (hexVal c).getD 0

/-- JS `str.replace(/\\u([0-9a-fA-F]{4})/g, ..fromCharCode(parseInt(code,16)))`.
`String.fromCharCode` of a non-surrogate code unit is the character with that
code point; surrogate values (which Lean characters cannot hold) collapse to
the null character. -/
def replaceUnicode : Str → Str
  | [] => []
  | '\\' :: 'u' :: h1 :: h2 :: h3 :: h4 :: rest2 =>
    if isHexDigit h1 ∧ isHexDigit h2 ∧ isHexDigit h3 ∧ isHexDigit h4 then
      Char.ofNat (hexValD h1 * 4096 + hexValD h2 * 256 + hexValD h3 * 16 + hexValD h4)
        :: replaceUnicode rest2
    else '\\' :: replaceUnicode ('u' :: h1 :: h2 :: h3 :: h4 :: rest2)
  | c :: rest => c :: replaceUnicode rest

/-- `decodeEscapeSequences` from `useChatStore.ts` lines 75-85. -/
def decodeEscapeSequences (s : Str) : Str :=
  replacePair '\\' '\\' ['\\']
    (replacePair '\\' '"' ['"']
      (replaceUnicode
        (replacePair '\\' 't' ['\t']
          (replacePair '\\' 'r' ['\r']
            (replacePair '\\' 'n' ['\n'] s)))))

/-- JS calls `.replace` on strings only; on any other value the property
access throws a `TypeError`, modelled as `none`. -/
def decodeEscJs : Json → Option Str
  | .str s => some (decodeEscapeSequences s)
  | _ => none

/-! Model of the regex `/"full_response":\s*"([^"\\]*(?:\\.[^"\\]*)*)"/`
used in the `complete` handler of `useChatStore.ts`. -/

def frColonLit : Str := ("\"full_response\":").data

def typeColonLit : Str := ("\"type\":").data

/-- `.` in a JS regex without the `s` flag: anything but a line terminator. -/
def regexDotOk (c : Char) : Bool :=
  c ≠ '\n' && c ≠ '\r' && c.val != 8232 && c.val != 8233

/-- The capture group `([^"\\]*(?:\\.[^"\\]*)*)` followed by the closing
quote: returns the raw captured characters and the remainder. -/
def frBody : Str → Option (Str × Str)
  | [] => none
  | c :: rest =>
    if c = '"' then some ([], rest)
    else if c = '\\' then
      match rest with
      | d :: rest2 =>
        if regexDotOk d then (frBody rest2).map (fun p => (c :: d :: p.1, p.2))
        else none
      | [] => none
    else (frBody rest).map (fun p => (c :: p.1, p.2))

/-- Whole-pattern match anchored at the current position. -/
def frMatchAt (s : Str) : Option (Str × Str) :=
  if frColonLit.isPrefixOf s then
    match (s.drop frColonLit.length).dropWhile isJsWs with
    | '"' :: s2 => frBody s2
    | _ => none
  else none

/-- `str.match(regex)` without the global flag: capture group of the
leftmost match. -/
def frFirstMatch : Str → Option Str
  | [] => none
  | c :: rest =>
    match frMatchAt (c :: rest) with
    | some (g, _) => some g
    | none => frFirstMatch rest

/-- `str.match(/.../g)`: capture groups of all matches, left to right,
non-overlapping (the code re-matches the last full match to read its group,
which yields exactly that match's capture). -/
def frAllMatchesAux : Nat → Str → List Str
  | 0, _ => []
  | _, [] => []
  | fuel + 1, c :: rest =>
    match frMatchAt (c :: rest) with
    | some (g, r) => g :: frAllMatchesAux fuel r
    | none => frAllMatchesAux fuel rest

def frAllMatches (s : Str) : List Str := frAllMatchesAux (s.length + 1) s

/-- The `full_response` deconfliction of `useChatStore.ts` lines 196-235
(identical at lines 291-330): when the string contains `"type":`, the branch
that also finds `"full_response":` extracts the FIRST regex match; the
take-the-last branch is only reached when the literal `"full_response":`
substring is absent, in which case the regex cannot match at all. -/
def extractFullResponse (fr : Json) : Json :=
  match fr with
  | .str s =>
    if includesStr typeColonLit s then
      if includesStr frColonLit s then
        match frFirstMatch s with
        | some g => if g = [] then .str s else .str (decodeEscapeSequences g)
        | none => .str s
      else
        match (frAllMatches s).getLast? with
        | some g => if g = [] then .str s else .str (decodeEscapeSequences g)
        | none => .str s
    else .str s
  | j => j

/-! The streaming decode loop of `sendMessageStream` (`useChatStore.ts`
lines 54-380). -/

def dataMarker : Str := ("data: ").data

def doneLit : Str := ("[DONE]").data

def typeKey : Str := ("type").data

def contentKey : Str := ("content").data

def doneKey : Str := ("done").data

def frKey : Str := ("full_response").data

def contentVal : Str := ("content").data

def completeVal : Str := ("complete").data

def rawJsonStart : Str := ("\x7b\"type\"").data

/-- Head-character test for `str.startsWith` with a one-character needle. -/
def headIs (c : Char) : Str → Bool
  | x :: _ => x = c
  | [] => false

/-- Last-character test for `str.endsWith` with a one-character needle. -/
def lastIs (c : Char) (s : Str) : Bool :=
  match s.getLast? with
  | some x => x = c
  | none => false

/-- `data.k === 'v'` for a string literal `v`. -/
def isStrField (d : Json) (k v : Str) : Bool :=
  match d.getField k with
  | some (.str s) => s = v
  | _ => false

/-- `data.type === 'content' && data.content !== undefined && !data.done`. -/
def isContentEvent (d : Json) : Bool :=
  isStrField d typeKey contentVal && (d.getField contentKey).isSome
    && !(jsTruthy (d.getField doneKey))

/-- `data.type === 'complete' && data.done`. -/
def isCompleteEvent (d : Json) : Bool :=
  isStrField d typeKey completeVal && jsTruthy (d.getField doneKey)

/-- `str.length` when the value is a string, `undefined` otherwise. -/
def jsLength : Json → Option Nat
  | .str s => some s.length
  | _ => none

/-- The loop-local state of `sendMessageStream` together with the two store
fields the loop mutates (`streamingMessage`, `isLoading`). -/
structure StreamSt where
  fullResponse : Json
  buffer : Str
  lastUpdateLength : Nat
  streamingMessage : Str
  isLoading : Bool
deriving DecidableEq, Repr

/-- Content-delta handling, `useChatStore.ts` lines 158-191 (duplicated
verbatim at lines 256-288): unwrap a double-encoded envelope, skip raw
JSON-looking text, append to `fullResponse`, refresh the display buffer when
the length changed.  A non-string `fullResponse` makes the length read
`undefined` and the decode throw; the exception is swallowed by the
enclosing per-line catch. -/
def handleContent (data : Json) (s : StreamSt) : StreamSt :=
  let c := (data.getField contentKey).getD .null
  let actualContent : Json :=
    match c with
    | .str cs =>
      if includesStr typeColonLit cs then
        match parseJson cs with
        | some parsed =>
          if isStrField parsed typeKey contentVal ∧ (parsed.getField contentKey).isSome then
            (parsed.getField contentKey).getD .null
          else c
        | none => c
      else c
    | _ => c
  let skip : Bool :=
    match actualContent with
    | .str acs => rawJsonStart.isPrefixOf acs
    | _ => false
  if skip then s
  else
    let fr' := jsAdd s.fullResponse actualContent
    let s1 := { s with fullResponse := fr' }
    let s2 :=
      match jsLength fr' with
      | some n => if n > 0 then { s1 with isLoading := false } else s1
      | none => s1
    match jsLength fr' with
    | some n =>
      if n ≠ s2.lastUpdateLength then
        match decodeEscJs fr' with
        | some t => { s2 with streamingMessage := t, lastUpdateLength := n }
        | none => s2
      else s2
    | none => s2

/-- Completion handling in the `data: `-prefixed branch, lines 194-245.  The
display update at line 239 throws on a non-string, so the `break` at line 244
is skipped and the exception lands in the per-line catch. -/
def handleCompleteSSE (data : Json) (s : StreamSt) : StreamSt × Bool :=
  if jsTruthy (data.getField frKey) then
    let actual := extractFullResponse ((data.getField frKey).getD .null)
    let s1 := { s with fullResponse := actual }
    match decodeEscJs actual with
    | some t => ({ s1 with streamingMessage := t, isLoading := false }, true)
    | none => (s1, false)
  else ({ s with isLoading := false }, true)

/-- Completion handling in the bare-JSON branch, lines 290-337: no display
update, so it always reaches its `break`. -/
def handleCompleteBare (data : Json) (s : StreamSt) : StreamSt × Bool :=
  if jsTruthy (data.getField frKey) then
    let actual := extractFullResponse ((data.getField frKey).getD .null)
    ({ s with fullResponse := actual, isLoading := false }, true)
  else ({ s with isLoading := false }, true)

/-- One line of the chat-store decode loop (lines 139-343).  The returned
flag is the `break` that ends the current chunk's line scan. -/
def stepLine (line : Str) (s : StreamSt) : StreamSt × Bool :=
  let t := trimStr line
  if t = [] then (s, false)
  else if dataMarker.isPrefixOf t then
    let jsonData := t.drop 6
    if jsonData = doneLit then (s, false)
    else
      match parseJson jsonData with
      | none => (s, false)
      | some data =>
        if isContentEvent data then (handleContent data s, false)
        else if isCompleteEvent data then handleCompleteSSE data s
        else (s, false)
  else if headIs '\x7b' t && lastIs '\x7d' t then
    match parseJson t with
    | none => (s, false)
    | some data =>
      if isContentEvent data then (handleContent data s, false)
      else if isCompleteEvent data then handleCompleteBare data s
      else (s, false)
  else (s, false)

/-- The `for (const line of lines)` scan with its `break`. -/
def processLines : List Str → StreamSt → StreamSt
  | [], s => s
  | l :: rest, s =>
    match stepLine l s with
    | (s', true) => s'
    | (s', false) => processLines rest s'

/-- One `reader.read()` chunk (lines 129-137): append to the carry-over
buffer, split on newlines, keep the unterminated trailing line buffered. -/
def processChunk (s : StreamSt) (chunk : Str) : StreamSt :=
  let lines := splitNL (s.buffer ++ chunk)
  processLines lines.dropLast { s with buffer := (lines.getLast?).getD [] }

def chatLoopInit : StreamSt :=
  { fullResponse := .str [], buffer := [], lastUpdateLength := 0,
    streamingMessage := [], isLoading := true }

def chatLoop (chunks : List Str) : StreamSt := chunks.foldl processChunk chatLoopInit

/-- End-of-stream flush of the leftover buffer (lines 92-103). -/
def flushBuffer (s : StreamSt) : StreamSt :=
  if trimStr s.buffer ≠ [] then
    match parseJson s.buffer with
    | some data =>
      if isStrField data typeKey contentVal ∧ jsTruthy (data.getField contentKey) then
        { s with fullResponse := jsAdd s.fullResponse ((data.getField contentKey).getD .null) }
      else s
    | none => { s with fullResponse := jsAdd s.fullResponse (.str s.buffer) }
  else s

/-- The `finalContent` computed at line 106; `none` is the `TypeError` thrown
when `fullResponse` ended up non-string, which escapes to the outer catch. -/
def chatFinalDecoded (chunks : List Str) : Option Str :=
  decodeEscJs (flushBuffer (chatLoop chunks)).fullResponse

inductive Role where
  | user
  | assistant
deriving DecidableEq, Repr

structure ChatMsg where
  content : Str
  role : Role
deriving DecidableEq, Repr

structure ChatState where
  messages : List ChatMsg
  isLoading : Bool
  isStreaming : Bool
  streamingMessage : Str
  error : Option Str
deriving DecidableEq, Repr

/-- How the stream attempt ended: `ok` delivers all chunks then a clean
end-of-stream; `failAfter` delivers the chunks then the transport throws
(`failAfter []` is a transport error or non-OK status before any byte). -/
inductive StreamOutcome where
  | ok (chunks : List Str)
  | failAfter (chunks : List Str)
deriving Repr

/-- Outcome of the non-streamed `chatService.sendMessage` fallback. -/
inductive FallbackOutcome where
  | ok (response : Str)
  | failed
deriving Repr

def apologyText : Str :=
  ("Üzgünüm, şu anda yanıt veremiyorum. Lütfen daha sonra tekrar deneyin.").data

def sendErrorText : Str := ("Mesaj gönderilemedi. Lütfen tekrar deneyin.").data

/-- The catch block of `sendMessageStream` (lines 346-379): one fallback
request; on its failure a fixed apology message and an error state; always
ends with the streaming flags and buffer cleared. -/
def chatCatchPath (msgs : List ChatMsg) (fb : FallbackOutcome) : ChatState :=
  match fb with
  | .ok r =>
    { messages := msgs ++ [⟨r, .assistant⟩], isLoading := false, isStreaming := false,
      streamingMessage := [], error := none }
  | .failed =>
    { messages := msgs ++ [⟨apologyText, .assistant⟩], isLoading := false,
      isStreaming := false, streamingMessage := [], error := some sendErrorText }

/-- The `done` commit (lines 105-126), with the 100 ms `setTimeout` that
clears the streaming state modelled as having fired (the event loop drains
before any observation the claims speak about). -/
def chatDonePath (msgs : List ChatMsg) (t : Str) : ChatState :=
  { messages := if trimStr t ≠ [] then msgs ++ [⟨t, .assistant⟩] else msgs,
    isLoading := false, isStreaming := false, streamingMessage := [], error := none }

/-- `sendMessageStream` of `useChatStore.ts`, end to end.  The second
component counts the non-streamed fallback requests issued. -/
def sendMessageStream (st0 : ChatState) (text : Str) (so : StreamOutcome)
    (fb : FallbackOutcome) : ChatState × Nat :=
  let msgs := st0.messages ++ [⟨text, .user⟩]
  match so with
  | .failAfter _ => (chatCatchPath msgs fb, 1)
  | .ok chunks =>
    match chatFinalDecoded chunks with
    | some t => (chatDonePath msgs t, 0)
    | none => (chatCatchPath msgs fb, 1)

/-! The memory-conversation store (`sendMessageWithMemoryStream` and its
`done` handler).  Unlike the plain chat store, this loop keeps no carry-over
buffer: each chunk is split on newlines on its own. -/

def sessionIdKey : Str := ("session_id").data

def messageCountKey : Str := ("message_count").data

def isNewConvKey : Str := ("is_new_conversation").data

def formattedKey : Str := ("formatted_response").data

def sessionInfoVal : Str := ("session_info").data

/-- A message of the conversation store.  `content` keeps the raw JS value the
code stores (normally a string); `sessionId` is the `session_id` property. -/
structure MemMsg where
  content : Json
  role : Role
  sessionId : Option Json
deriving DecidableEq, Repr

/-- The conversation store's persisted/visible state (the fields the modelled
claims touch).  `currentSessionId = none` is the initial `null`. -/
structure MemState where
  messages : List MemMsg
  currentSessionId : Option Json
  messageCount : Option Json
  isNewConversation : Option Json
  isLoading : Bool
  isStreaming : Bool
  streamingMessage : Json
  error : Option Str
deriving DecidableEq, Repr

/-- `addMessage` of the conversation store:
`session_id: message.session_id || get().currentSessionId || undefined`. -/
def memAddMessage (st : MemState) (content : Json) (role : Role)
    (sid : Option Json) : MemState :=
  let sid' := if jsTruthy sid then sid
    else if jsTruthy st.currentSessionId then st.currentSessionId
    else none
  { st with messages := st.messages ++ [⟨content, role, sid'⟩] }

/-- Loop-local state of `sendMessageWithMemoryStream` plus the two store
fields the loop mutates. -/
structure MemLoopSt where
  fullResponse : Json
  sessionInfo : Option Json
  streamingMessage : Json
  isLoading : Bool
deriving DecidableEq, Repr

/-- One line of the memory-stream loop (lines 210-246 of the conversation
store): only `data: `-prefixed lines are considered, the prefix is removed
with a first-occurrence `replace`, parse failures are logged and skipped. -/
def stepMemLine (line : Str) (s : MemLoopSt) : MemLoopSt :=
  if dataMarker.isPrefixOf (trimStr line) then
    let jsonData := trimStr (replaceFirstStr dataMarker [] line)
    if jsonData = doneLit then s
    else
      match parseJson jsonData with
      | none => s
      | some data =>
        if isStrField data typeKey contentVal && !(jsTruthy (data.getField doneKey)) then
          let fr' := jsAddOpt s.fullResponse (data.getField contentKey)
          let s1 := { s with fullResponse := fr' }
          let s2 :=
            match jsLength fr' with
            | some n => if n > 0 then { s1 with isLoading := false } else s1
            | none => s1
          { s2 with streamingMessage := fr' }
        else if isStrField data typeKey completeVal || isStrField data typeKey sessionInfoVal then
          let s1 := if jsTruthy (data.getField sessionIdKey) then { s with sessionInfo := some data } else s
          let s2 :=
            if jsTruthy (data.getField formattedKey) then
              { s1 with fullResponse := (data.getField formattedKey).getD .null }
            else s1
          { s2 with isLoading := false }
        else s
  else s

/-- One chunk (lines 206-212): `chunk.split('\n')`, every piece processed at
once — no carry-over buffer, an unterminated trailing line is parsed (and
typically dropped as malformed) immediately. -/
def processMemChunk (s : MemLoopSt) (chunk : Str) : MemLoopSt :=
  (splitNL chunk).foldl (fun st l => stepMemLine l st) s

def memLoopInit : MemLoopSt :=
  { fullResponse := .str [], sessionInfo := none, streamingMessage := .str [], isLoading := true }

/-- JS strict `!==` between `sessionInfo.session_id` (possibly `undefined`)
and the stored session id (possibly `null`): distinct absent values are
still strictly unequal. -/
def sidNe (x prev : Option Json) : Bool :=
  match x, prev with
  | some a, some b => a ≠ b
  | _, _ => true

/-- Result of one memory-stream send: the final store state, the number of
history reloads triggered at completion (the `loadConversationHistory` call
is counted, not executed — its effect depends on the server response and no
claim depends on it), and the final `sessionInfo`. -/
structure MemRun where
  state : MemState
  reloadCount : Nat
  sessionInfo : Option Json
deriving Repr

/-- `sendMessageWithMemoryStream` (conversation store lines 143-247), success
path: user message appended up front, chunks decoded without a carry-over
buffer, terminal commit of `fullResponse`, session-metadata adoption, and the
conditional history reload (`session_id` changed and
`get().messages.length <= 2`, evaluated after the commit).  The catch-path
fallback (lines 249-272) is not modelled: no claim depends on it. -/
def sendMessageWithMemoryStream (st0 : MemState) (text : Str) (chunks : List Str) : MemRun :=
  let st1 := { st0 with
               isLoading := true, isStreaming := true, error := none,
               streamingMessage := Json.str [] }
  let st2 := memAddMessage st1 (.str text) .user none
  let ls := chunks.foldl processMemChunk memLoopInit
  let committed := memAddMessage st2 ls.fullResponse .assistant
    (ls.sessionInfo.bind (fun si => si.getField sessionIdKey))
  match ls.sessionInfo with
  | none =>
    { state := { committed with
                 isLoading := false, isStreaming := false, streamingMessage := Json.str [] },
      reloadCount := 0, sessionInfo := none }
  | some si =>
    let prev := committed.currentSessionId
    let st4 := { committed with
                 currentSessionId := si.getField sessionIdKey,
                 messageCount := si.getField messageCountKey,
                 isNewConversation := si.getField isNewConvKey }
    let reload := if sidNe (si.getField sessionIdKey) prev ∧ st4.messages.length ≤ 2 then 1 else 0
    { state := { st4 with
                 isLoading := false, isStreaming := false, streamingMessage := Json.str [] },
      reloadCount := reload, sessionInfo := some si }

/-! The recording-session lifecycle of `VoiceAssistant.tsx`.  The
`MediaRecorder` object is modelled separately from the React ref that points
at it: nulling the ref does not destroy the object, its queued `stop` event,
or its attached `onstop` handler.  The `isOpen` read by the `onstop` and
`processAudio` closures is the prop value captured at the render in which
`startRecording` created them (JS closures capture the binding of their
defining scope). -/

structure RecorderObj where
  recording : Bool
  onstopAttached : Bool
  capturedIsOpen : Bool
  stopEventPending : Bool
deriving DecidableEq, Repr

structure VoiceState where
  isRecording : Bool
  isProcessing : Bool
  isPlaying : Bool
  isInitializing : Bool
  recorderRef : Bool
  recorderObj : Option RecorderObj
  audioRef : Bool
  intervalRef : Bool
  animationRef : Bool
  streamRef : Bool
  audioContextRef : Bool
  abortControllerRef : Bool
deriving DecidableEq, Repr

/-- `cleanup` (`VoiceAssistant.tsx` lines 34-111): aborts the in-flight
request, detaches `onstop` and stops the recorder — but only when the
recorder is still in the `recording` state — releases audio, timers,
animation frame, tracks and audio context, nulls every ref and resets every
flag. -/
def cleanup (s : VoiceState) : VoiceState :=
  let obj' :=
    if s.recorderRef then
      match s.recorderObj with
      | some o =>
        if o.recording then
          some { o with onstopAttached := false, recording := false, stopEventPending := true }
        else some o
      | none => none
    else s.recorderObj
  { isRecording := false, isProcessing := false, isPlaying := false, isInitializing := false,
    recorderRef := false, recorderObj := obj', audioRef := false, intervalRef := false,
    animationRef := false, streamRef := false, audioContextRef := false,
    abortControllerRef := false }

/-- `startRecording` (lines 159-223), successful acquisition: microphone and
analysis context acquired, a fresh `MediaRecorder` with an `onstop` handler
whose closures capture the current `isOpen`, recording flag and timers on. -/
def startRecording (isOpen : Bool) (s : VoiceState) : VoiceState :=
  { s with
    isInitializing := false, streamRef := true, audioContextRef := true,
    recorderRef := true,
    recorderObj := some { recording := true, onstopAttached := true,
                          capturedIsOpen := isOpen, stopEventPending := false },
    isRecording := true, intervalRef := true, animationRef := true }

/-- `stopRecording` (lines 225-249): stops the recorder (queueing its `stop`
event, `onstop` left attached), aborts any outstanding request, clears
timers. -/
def stopRecording (s : VoiceState) : VoiceState :=
  if s.recorderRef ∧ s.isRecording then
    { s with
      recorderObj := s.recorderObj.map (fun o => { o with recording := false, stopEventPending := true }),
      isRecording := false, abortControllerRef := false,
      intervalRef := false, animationRef := false }
  else s

/-- Entry of `processAudio` (lines 251-261) up to its network suspension
point: the liveness double-check reads the captured `isOpen`; past it the
processing flag goes up and a fresh cancellation token is created. -/
def processAudioStart (isOpen : Bool) (s : VoiceState) : VoiceState :=
  if isOpen then { s with isProcessing := true, abortControllerRef := true } else s

/-- Asynchronous delivery of the queued `MediaRecorder` stop event: if the
`onstop` handler is still attached it runs (lines 196-207), guarded by the
captured `isOpen`, and calls into `processAudio`. -/
def deliverOnstop (s : VoiceState) : VoiceState :=
  match s.recorderObj with
  | some o =>
    if o.stopEventPending then
      let s1 := { s with recorderObj := some { o with stopEventPending := false } }
      if o.onstopAttached then
        if o.capturedIsOpen then processAudioStart o.capturedIsOpen s1 else s1
      else s1
    else s
  | none => s

/-- The modal's idle state: no handles, no flags. -/
def voiceInit : VoiceState :=
  { isRecording := false, isProcessing := false, isPlaying := false, isInitializing := false,
    recorderRef := false, recorderObj := none, audioRef := false, intervalRef := false,
    animationRef := false, streamRef := false, audioContextRef := false,
    abortControllerRef := false }

/-! Shared helper definitions and lemmas for the claim theorems. -/

def chatInitState : ChatState :=
  { messages := [], isLoading := false, isStreaming := false, streamingMessage := [],
    error := none }

def memInitState : MemState :=
  { messages := [], currentSessionId := none, messageCount := some (.num 0),
    isNewConversation := some (.bool true), isLoading := false, isStreaming := false,
    streamingMessage := .str [], error := none }

def countAssistant (ms : List ChatMsg) : Nat :=
  (ms.filter (fun m => m.role = Role.assistant)).length

theorem countAssistant_append (a b : List ChatMsg) :
    countAssistant (a ++ b) = countAssistant a + countAssistant b := by
  simp [countAssistant, List.filter_append]

/-! Claim C1: the `full_response` double-emit deconfliction. -/

/-- A `full_response` payload carrying two concatenated completion objects:
the embedded fields hold `First` and then `Second`. -/
def c1doubleFR : Str :=
  ("\x7b\"type\": \"x\", \"full_response\": \"First\"\x7d \x7b\"full_response\": \"Second\"\x7d").data

/-- The SSE line delivering that payload as the `full_response` of a
terminal `complete` event. -/
def c1chunk : Str :=
  ("data: \x7b\"type\":\"complete\",\"done\":true,\"full_response\":\"\x7b\\\"type\\\": \\\"x\\\", \\\"full_response\\\": \\\"First\\\"\x7d \x7b\\\"full_response\\\": \\\"Second\\\"\x7d\"\x7d\n").data

/-- C1: against the claim, a completion whose `full_response` embeds two
`"full_response"` fields is resolved to the FIRST one.  The regex scan shows
the fields in order (`First`, `Second`), so the last one is `Second`; yet
both the extraction step and the committed assistant message adopt `First`:
the `includes("full_response":)` test routes such payloads into the
first-match branch, and the take-the-last branch is unreachable for them. -/
theorem completeDoubleEmitTakesFirstField :
    frAllMatches c1doubleFR = [("First").data, ("Second").data]
    ∧ extractFullResponse (.str c1doubleFR) = .str (("First").data)
    ∧ (sendMessageStream chatInitState (("Hi").data) (.ok [c1chunk]) .failed).1.messages
        = [⟨("Hi").data, .user⟩, ⟨("First").data, .assistant⟩]
    ∧ ("First").data ≠ ("Second").data := by
  refine ⟨by decide, by decide, by decide, by decide⟩

/-! Claim C2: chunk-boundary invariance of the two decode paths. -/

def c2full : Str :=
  ("data: \x7b\"type\":\"content\",\"content\":\"AB\",\"done\":false\x7d\n").data

def c2a : Str := ("data: \x7b\"type\":\"cont").data

def c2b : Str := ("ent\",\"content\":\"AB\",\"done\":false\x7d\n").data

/-- C2: the memory-conversation decode path is NOT chunking-invariant.  The
same byte stream delivered whole commits the assistant message `AB`, but
delivered split in the middle of the line it commits the empty message: the
memory loop keeps no carry-over buffer, so the first half fails to parse and
the second half no longer carries the `data: ` marker.  The plain chat store,
whose loop does buffer the trailing line, decodes this split identically to
the whole stream. -/
theorem memoryStreamSplitChangesResult :
    c2a ++ c2b = c2full
    ∧ (sendMessageWithMemoryStream memInitState (("Hi").data) [c2full]).state.messages
        = [⟨.str (("Hi").data), .user, none⟩, ⟨.str (("AB").data), .assistant, none⟩]
    ∧ (sendMessageWithMemoryStream memInitState (("Hi").data) [c2a, c2b]).state.messages
        = [⟨.str (("Hi").data), .user, none⟩, ⟨.str [], .assistant, none⟩]
    ∧ Json.str (("AB").data) ≠ Json.str []
    ∧ sendMessageStream chatInitState (("Hi").data) (.ok [c2full]) .failed
        = sendMessageStream chatInitState (("Hi").data) (.ok [c2a, c2b]) .failed := by
  refine ⟨by decide, by decide, by decide, by decide, by decide⟩

/-! Claim C7: in-order delta accumulation. -/

def c7chunks : List Str :=
  [("data: \x7b\"type\":\"content\",\"content\":\"Hel\",\"done\":false\x7d\n").data,
   ("data: \x7b\"type\":\"content\",\"content\":\"lo \",\"done\":false\x7d\n").data,
   ("data: \x7b\"type\":\"content\",\"content\":\"world\",\"done\":false\x7d\n").data,
   ("data: \x7b\"type\":\"complete\",\"done\":true\x7d\n").data]

/-- C7: deltas `Hel`, `lo `, `world` followed by a completion with no
`full_response` commit exactly one assistant message whose content is the
wire-order concatenation `Hello world`. -/
theorem chatDeltasAccumulateInOrder :
    (sendMessageStream chatInitState (("Merhaba").data) (.ok c7chunks) .failed).1.messages
      = [⟨("Merhaba").data, .user⟩, ⟨("Hello world").data, .assistant⟩]
    ∧ countAssistant
        (sendMessageStream chatInitState (("Merhaba").data) (.ok c7chunks) .failed).1.messages
      = 1 := by
  refine ⟨by decide, by decide⟩

/-! Claims C9 and C10: the escape-sequence decoder. -/

theorem isHexDigit_ne_backslash (c : Char) (h : isHexDigit c = true) : c ≠ '\\' := by
  intro e
  subst e
  exact absurd h (by decide)

def c9specInput : Str := ("Line1\\nLine2 \\\"q\\\" \\u00e7!").data

def c9specOutput : Str := ("Line1\nLine2 \"q\" ç!").data

/-- C9: each escape kind decodes as specified: the five two-character
sequences map to newline, carriage return, tab, quote and backslash, and a
`\uXXXX` sequence of four hex digits maps to the character with that code
(the hypothesis keeps the code below the surrogate range, which Lean
characters cannot represent); the spec's example input containing `\n`,
`\"` and `ç` decodes to a literal newline, a literal quote and `ç`. -/
theorem decodeEscapeSequencesMappings (h1 h2 h3 h4 : Char)
    (hh1 : isHexDigit h1 = true) (hh2 : isHexDigit h2 = true)
    (hh3 : isHexDigit h3 = true) (hh4 : isHexDigit h4 = true)
    (_hscalar : hexValD h1 * 4096 + hexValD h2 * 256 + hexValD h3 * 16 + hexValD h4 < 55296) :
    decodeEscapeSequences ['\\', 'n'] = ['\n']
    ∧ decodeEscapeSequences ['\\', 'r'] = ['\r']
    ∧ decodeEscapeSequences ['\\', 't'] = ['\t']
    ∧ decodeEscapeSequences ['\\', '"'] = ['"']
    ∧ decodeEscapeSequences ['\\', '\\'] = ['\\']
    ∧ decodeEscapeSequences ['\\', 'u', h1, h2, h3, h4]
        = [Char.ofNat (hexValD h1 * 4096 + hexValD h2 * 256 + hexValD h3 * 16 + hexValD h4)]
    ∧ decodeEscapeSequences c9specInput = c9specOutput := by
  have n1 := isHexDigit_ne_backslash h1 hh1
  have n2 := isHexDigit_ne_backslash h2 hh2
  have n3 := isHexDigit_ne_backslash h3 hh3
  refine ⟨by decide, by decide, by decide, by decide, by decide, ?_, by decide⟩
  simp [decodeEscapeSequences, replacePair, replaceUnicode, n1, n2, n3, hh1, hh2, hh3, hh4]

/-- Witness for the hypotheses of the C9 theorem: the digits `00e7` decode
to `ç`. -/
theorem decodeEscapeSequencesMappings_check :
    decodeEscapeSequences ['\\', 'u', '0', '0', 'e', '7']
      = [Char.ofNat (hexValD '0' * 4096 + hexValD '0' * 256 + hexValD 'e' * 16 + hexValD '7')] :=
  (decodeEscapeSequencesMappings '0' '0' 'e' '7' (by decide) (by decide) (by decide)
    (by decide) (by decide)).2.2.2.2.2.1

/-- C10: the fixed replacement order makes the decoder diverge from standard
JSON string unescaping: the three characters backslash-backslash-`n` decode
to backslash followed by a newline, while `JSON.parse` reads the same body
as backslash followed by the letter `n`. -/
theorem decodeOrderDiffersFromJsonUnescape :
    decodeEscapeSequences ['\\', '\\', 'n'] = ['\\', '\n']
    ∧ parseJson (("\"\\\\n\"").data) = some (.str ['\\', 'n'])
    ∧ (['\\', '\n'] : Str) ≠ ['\\', 'n'] := by
  refine ⟨by decide, by decide, by decide⟩

/-! Claim C6: cleanup idempotence and the pending capture-completion
callback. -/

/-- C6: `cleanup` is idempotent and resets every flag and handle; but a
capture-completion callback left pending by `stopRecording` survives
`cleanup`, because the `onstop` handler is only detached when the recorder is
still in the `recording` state and its liveness guard reads the `isOpen`
captured when recording started.  In the interleaving `startRecording` →
`stopRecording` → `cleanup` → stop-event delivery, `processAudio` runs and
resurrects the processing flag and a live cancellation token; only a
`cleanup` issued while still recording detaches the handler in time. -/
theorem cleanupIdempotentYetOnstopSurvivesStop :
    (∀ s : VoiceState, cleanup (cleanup s) = cleanup s)
    ∧ (∀ s : VoiceState,
        (cleanup s).isRecording = false ∧ (cleanup s).isProcessing = false
        ∧ (cleanup s).isPlaying = false ∧ (cleanup s).isInitializing = false
        ∧ (cleanup s).recorderRef = false ∧ (cleanup s).audioRef = false
        ∧ (cleanup s).intervalRef = false ∧ (cleanup s).animationRef = false
        ∧ (cleanup s).streamRef = false ∧ (cleanup s).audioContextRef = false
        ∧ (cleanup s).abortControllerRef = false)
    ∧ (deliverOnstop (cleanup (stopRecording (startRecording true voiceInit)))).isProcessing
        = true
    ∧ (deliverOnstop (cleanup (stopRecording (startRecording true voiceInit)))).abortControllerRef
        = true
    ∧ (deliverOnstop (cleanup (startRecording true voiceInit))).isProcessing = false := by
  refine ⟨fun s => rfl, fun s => ⟨rfl, rfl, rfl, rfl, rfl, rfl, rfl, rfl, rfl, rfl, rfl⟩,
    by decide, by decide, by decide⟩

/-! Claim C3: the terminal commit happens at most once per send. -/

/-- C3 counterexample: an event sequence whose final decoded content is blank
(here the empty stream) commits NO assistant message at all — the log ends
with only the user message, so "exactly one assistant message for every event
sequence" fails. -/
theorem chatEmptyStreamCommitsNothing :
    (sendMessageStream chatInitState (("Merhaba").data) (.ok []) .failed).1.messages
      = [⟨("Merhaba").data, .user⟩]
    ∧ countAssistant
        (sendMessageStream chatInitState (("Merhaba").data) (.ok []) .failed).1.messages = 0 := by
  refine ⟨by decide, by decide⟩

/-- C3 amended: for EVERY event sequence a send commits at most one assistant
message — exactly one when the decoded final content is non-blank (or when the
run fails over to the fallback, which itself commits exactly one), and none
when it is blank.  In particular any number of repeated `complete` events
still yields a single commit. -/
theorem sendMessageStreamCommitsAtMostOnce (st0 : ChatState) (text : Str)
    (cs : List Str) (fb : FallbackOutcome) :
    countAssistant (sendMessageStream st0 text (.ok cs) fb).1.messages
      = countAssistant st0.messages
        + (match chatFinalDecoded cs with
           | none => 1
           | some t => if trimStr t = [] then 0 else 1)
    ∧ countAssistant (sendMessageStream st0 text (.failAfter cs) fb).1.messages
      = countAssistant st0.messages + 1 := by
  constructor
  · cases h : chatFinalDecoded cs with
    | none =>
      cases fb <;>
        simp [sendMessageStream, h, chatCatchPath, countAssistant_append, countAssistant]
    | some t =>
      by_cases ht : trimStr t = [] <;>
        simp [sendMessageStream, h, chatDonePath, ht, countAssistant_append, countAssistant]
  · cases fb <;>
      simp [sendMessageStream, chatCatchPath, countAssistant_append, countAssistant]

/-! Claim C4: hard-failure fallback and final streaming state. -/

/-- C4: a hard stream failure (transport error, non-OK status, or an
exception reaching the outer catch) issues exactly one non-streamed fallback
request — a clean streamed run issues none; fallback success commits its
response as the assistant message, double failure commits the fixed apology
and sets the error state; and on every outcome the run ends with
`streamingMessage` empty and `isStreaming` off. -/
theorem sendMessageStreamFailureFallback (st0 : ChatState) (text r : Str)
    (cs : List Str) (fb : FallbackOutcome) (so : StreamOutcome) :
    (sendMessageStream st0 text (.failAfter cs) fb).2 = 1
    ∧ (sendMessageStream st0 text (.ok cs) fb).2
        = (match chatFinalDecoded cs with | none => 1 | some _ => 0)
    ∧ (sendMessageStream st0 text (.failAfter cs) (.ok r)).1.messages
        = st0.messages ++ [⟨text, .user⟩, ⟨r, .assistant⟩]
    ∧ (sendMessageStream st0 text (.failAfter cs) .failed).1.messages
        = st0.messages ++ [⟨text, .user⟩, ⟨apologyText, .assistant⟩]
    ∧ (sendMessageStream st0 text (.failAfter cs) .failed).1.error = some sendErrorText
    ∧ (sendMessageStream st0 text so fb).1.streamingMessage = []
    ∧ (sendMessageStream st0 text so fb).1.isStreaming = false := by
  refine ⟨?_, ?_, ?_, ?_, ?_, ?_, ?_⟩
  · cases fb <;> rfl
  · cases h : chatFinalDecoded cs with
    | none => cases fb <;> simp [sendMessageStream, h, chatCatchPath]
    | some t => simp [sendMessageStream, h]
  · simp [sendMessageStream, chatCatchPath]
  · simp [sendMessageStream, chatCatchPath]
  · simp [sendMessageStream, chatCatchPath]
  · cases so with
    | failAfter cs2 => cases fb <;> simp [sendMessageStream, chatCatchPath]
    | ok cs2 =>
      cases h : chatFinalDecoded cs2 with
      | none => cases fb <;> simp [sendMessageStream, h, chatCatchPath]
      | some t => simp [sendMessageStream, h, chatDonePath]
  · cases so with
    | failAfter cs2 => cases fb <;> simp [sendMessageStream, chatCatchPath]
    | ok cs2 =>
      cases h : chatFinalDecoded cs2 with
      | none => cases fb <;> simp [sendMessageStream, h, chatCatchPath]
      | some t => simp [sendMessageStream, h, chatDonePath]

/-! Claim C5: the conditional history reload at stream completion. -/

def c5chunk : Str :=
  ("data: \x7b\"type\":\"complete\",\"done\":true,\"session_id\":\"new\",\"message_count\":2,\"is_new_conversation\":true,\"formatted_response\":\"Hello!\"\x7d\n").data

def c5stateEmpty : MemState :=
  { memInitState with currentSessionId := some (.str (("old").data)) }

def c5stateOne : MemState :=
  { c5stateEmpty with messages := [⟨.str (("x").data), .user, none⟩] }

/-- C5 counterexample: the reload check runs after the user and assistant
messages of this turn are committed, against `messages.length <= 2`.  With no
prior history the log already holds 2 messages at the check and a reload IS
triggered (refuting "2 or more means no reload"); with one prior message the
log holds fewer than 2 prior messages and NO reload is triggered (refuting
"fewer than 2 means exactly one reload"), even though session metadata with
a changed id did arrive. -/
theorem memoryReloadConditionCounterexample :
    c5stateEmpty.messages.length = 0
    ∧ (sendMessageWithMemoryStream c5stateEmpty (("Hi").data) [c5chunk]).reloadCount = 1
    ∧ (sendMessageWithMemoryStream c5stateEmpty (("Hi").data) [c5chunk]).state.messages.length = 2
    ∧ c5stateOne.messages.length = 1
    ∧ (sendMessageWithMemoryStream c5stateOne (("Hi").data) [c5chunk]).reloadCount = 0
    ∧ (sendMessageWithMemoryStream c5stateOne (("Hi").data) [c5chunk]).sessionInfo ≠ none := by
  refine ⟨by decide, by decide, by decide, by decide, by decide, by decide⟩

/-- C5 amended: exactly one history reload is triggered iff the stream
delivered session metadata whose `session_id` strictly differs from the
stored one AND the message log was empty before this send (the code's
`length <= 2` check counts the user/assistant pair just committed, so it is
equivalent to "no prior local history"); in every other case no reload is
triggered. -/
theorem memoryReloadExactlyWhenNoPriorHistory (st0 : MemState) (text : Str)
    (chunks : List Str) :
    (sendMessageWithMemoryStream st0 text chunks).reloadCount
      = match (sendMessageWithMemoryStream st0 text chunks).sessionInfo with
        | some si =>
          if sidNe (si.getField sessionIdKey) st0.currentSessionId ∧ st0.messages.length = 0
          then 1 else 0
        | none => 0 := by
  cases h : (chunks.foldl processMemChunk memLoopInit).sessionInfo with
  | none => simp [sendMessageWithMemoryStream, h]
  | some si =>
    simp only [sendMessageWithMemoryStream, h, memAddMessage, List.length_append,
      List.length_cons, List.length_nil]
    split_ifs with h1 h2 h3
    · rfl
    · obtain ⟨ha, hb⟩ := h1
      exact absurd ⟨ha, by omega⟩ h2
    · obtain ⟨ha, hb⟩ := h3
      exact absurd ⟨ha, by omega⟩ h1
    · rfl

/-! Claim C8: a malformed line is dropped without harming the stream. -/

abbrev noNL (l : Str) : Prop := '\n' ∉ l

def joinLines : List Str → Str
  | [] => []
  | l :: rest => l ++ '\n' :: joinLines rest

theorem splitNL_append_line (l t : Str) (h : noNL l) :
    splitNL (l ++ '\n' :: t) = l :: splitNL t := by
  induction l with
  | nil => simp [splitNL]
  | cons c rest ih =>
    have hc : c ≠ '\n' := by
      intro e
      exact h (by simp [e])
    have hrest : noNL rest := fun hm => h (List.mem_cons_of_mem _ hm)
    simp [splitNL, hc, ih hrest]

theorem splitNL_joinLines (ls : List Str) (h : ∀ l ∈ ls, noNL l) :
    splitNL (joinLines ls) = ls ++ [[]] := by
  induction ls with
  | nil => simp [joinLines, splitNL]
  | cons l rest ih =>
    have hl : noNL l := h l (by simp)
    have hrest : ∀ x ∈ rest, noNL x := fun x hx => h x (by simp [hx])
    simp [joinLines, splitNL_append_line l _ hl, ih hrest]

/-- A `data: `-prefixed line that survives trimming unchanged, is not the
`[DONE]` sentinel, and whose payload fails `JSON.parse`. -/
abbrev malformedDataLine (m : Str) : Prop :=
  dataMarker.isPrefixOf m = true
  ∧ trimStr m = m
  ∧ trimStr (m.drop 6) = m.drop 6
  ∧ noNL m
  ∧ m.drop 6 ≠ doneLit
  ∧ parseJson (m.drop 6) = none

theorem replaceFirst_dataMarker (m : Str) (h : dataMarker.isPrefixOf m = true) :
    replaceFirstStr dataMarker [] m = m.drop 6 := by
  cases m with
  | nil => exact absurd h (by decide)
  | cons c rest =>
    unfold replaceFirstStr
    rw [if_pos h]
    rfl

theorem stepLine_malformed (m : Str) (h : malformedDataLine m) (s : StreamSt) :
    stepLine m s = (s, false) := by
  obtain ⟨h1, h2, _h3, _h4, h5, h6⟩ := h
  have hne : m ≠ [] := by
    rintro rfl
    exact absurd h1 (by decide)
  simp [stepLine, h2, hne, h1, h5, h6]

theorem stepMemLine_malformed (m : Str) (h : malformedDataLine m) (s : MemLoopSt) :
    stepMemLine m s = s := by
  obtain ⟨h1, h2, h3, _h4, h5, h6⟩ := h
  simp [stepMemLine, h2, h1, replaceFirst_dataMarker m h1, h3, h5, h6]

theorem processLines_insert (pre post : List Str) (m : Str) (hm : malformedDataLine m)
    (s : StreamSt) :
    processLines (pre ++ m :: post) s = processLines (pre ++ post) s := by
  induction pre generalizing s with
  | nil => simp [processLines, stepLine_malformed m hm]
  | cons p rest ih =>
    rcases hp : stepLine p s with ⟨s', b⟩
    cases b with
    | true => simp only [List.cons_append, processLines, hp]
    | false =>
      simp only [List.cons_append, processLines, hp]
      exact ih s'

theorem chatLoop_single_insert (pre post : List Str) (m : Str)
    (hpre : ∀ l ∈ pre, noNL l) (hpost : ∀ l ∈ post, noNL l) (hm : malformedDataLine m) :
    chatLoop [joinLines (pre ++ m :: post)] = chatLoop [joinLines (pre ++ post)] := by
  have hall1 : ∀ l ∈ pre ++ m :: post, noNL l := by
    intro l hl
    rcases List.mem_append.mp hl with hA | hB
    · exact hpre l hA
    · rcases List.mem_cons.mp hB with rfl | hC
      · exact hm.2.2.2.1
      · exact hpost l hC
  have hall2 : ∀ l ∈ pre ++ post, noNL l := by
    intro l hl
    rcases List.mem_append.mp hl with hA | hB
    · exact hpre l hA
    · exact hpost l hB
  simp only [chatLoop, List.foldl_cons, List.foldl_nil, processChunk, chatLoopInit,
    List.nil_append, splitNL_joinLines _ hall1, splitNL_joinLines _ hall2,
    List.dropLast_concat, List.getLast?_concat, Option.getD_some]
  exact processLines_insert pre post m hm _

/-- C8: one malformed `data: ` line in a stream changes nothing — in both the
plain chat path and the memory path, the whole send behaves exactly as if the
line were absent: later deltas still apply and the terminal commit still
occurs with the same result. -/
theorem malformedLineNeverAbortsStream (stc : ChatState) (stm : MemState)
    (textc textm : Str) (fb : FallbackOutcome) (pre post : List Str) (m : Str)
    (hpre : ∀ l ∈ pre, noNL l) (hpost : ∀ l ∈ post, noNL l)
    (hm : malformedDataLine m) :
    sendMessageStream stc textc (.ok [joinLines (pre ++ m :: post)]) fb
      = sendMessageStream stc textc (.ok [joinLines (pre ++ post)]) fb
    ∧ sendMessageWithMemoryStream stm textm [joinLines (pre ++ m :: post)]
      = sendMessageWithMemoryStream stm textm [joinLines (pre ++ post)] := by
  have hall1 : ∀ l ∈ pre ++ m :: post, noNL l := by
    intro l hl
    rcases List.mem_append.mp hl with hA | hB
    · exact hpre l hA
    · rcases List.mem_cons.mp hB with rfl | hC
      · exact hm.2.2.2.1
      · exact hpost l hC
  have hall2 : ∀ l ∈ pre ++ post, noNL l := by
    intro l hl
    rcases List.mem_append.mp hl with hA | hB
    · exact hpre l hA
    · exact hpost l hB
  constructor
  · have hfd : chatFinalDecoded [joinLines (pre ++ m :: post)]
        = chatFinalDecoded [joinLines (pre ++ post)] := by
      unfold chatFinalDecoded
      rw [chatLoop_single_insert pre post m hpre hpost hm]
    simp [sendMessageStream, hfd]
  · have hls : processMemChunk memLoopInit (joinLines (pre ++ m :: post))
        = processMemChunk memLoopInit (joinLines (pre ++ post)) := by
      simp only [processMemChunk, splitNL_joinLines _ hall1, splitNL_joinLines _ hall2,
        List.foldl_append, List.foldl_cons, List.foldl_nil,
        stepMemLine_malformed m hm]
    simp [sendMessageWithMemoryStream, hls]

def c8pre : List Str :=
  [("data: \x7b\"type\":\"content\",\"content\":\"Hi\",\"done\":false\x7d").data]

def c8mal : Str := ("data: zzz-not-json").data

def c8post : List Str :=
  [("data: \x7b\"type\":\"complete\",\"done\":true\x7d").data]

/-- Witness for the C8 theorem's hypotheses: a concrete delta, a concrete
malformed line, a concrete completion — the malformed line is dropped, the
delta and the completion are still applied, and the commit still happens. -/
theorem malformedLineNeverAbortsStream_check :
    ((∀ l ∈ c8pre, noNL l) ∧ (∀ l ∈ c8post, noNL l) ∧ malformedDataLine c8mal)
    ∧ (sendMessageStream chatInitState (("Q").data)
          (.ok [joinLines (c8pre ++ c8mal :: c8post)]) .failed
        = sendMessageStream chatInitState (("Q").data)
          (.ok [joinLines (c8pre ++ c8post)]) .failed
      ∧ sendMessageWithMemoryStream memInitState (("Q").data)
          [joinLines (c8pre ++ c8mal :: c8post)]
        = sendMessageWithMemoryStream memInitState (("Q").data)
          [joinLines (c8pre ++ c8post)])
    ∧ (sendMessageStream chatInitState (("Q").data)
        (.ok [joinLines (c8pre ++ c8mal :: c8post)]) .failed).1.messages
      = [⟨("Q").data, .user⟩, ⟨("Hi").data, .assistant⟩] :=
  ⟨by decide,
   malformedLineNeverAbortsStream chatInitState memInitState (("Q").data) (("Q").data)
     .failed c8pre c8post c8mal (by decide) (by decide) (by decide),
   by decide⟩
